import Mathlib

/-!
Verification of the TaskMateAi report/reminder core.

Shallow embedding of `backend/services/reports.py`,
`backend/services/reminders.py`, `backend/workers/reminders_worker.py`
and the reminder-creation path of `backend/api/telegram_router.py`.

Instants (UTC datetimes) are modelled as `Int` (minutes since an epoch);
Python `timedelta(minutes=k)` is the integer `k`.  Local calendar dates are
modelled as proleptic-Gregorian triples, mirroring the semantics of Python's
`datetime`/`timedelta` wall-clock arithmetic used by `_calculate_window`.
-/

namespace TaskMate

/-- A local calendar date (the midnight-local datetimes handled by
`_calculate_window`: every datetime there has time 00:00). -/
structure PlainDate where
  year : Nat
  month : Nat
  day : Nat
deriving DecidableEq

/-- Gregorian leap-year rule (semantics of Python's `calendar`/`datetime`). -/
def isLeapYear (y : Nat) : Bool :=
  (y % 4 == 0 && y % 100 != 0) || y % 400 == 0

/-- Number of days of month `m` of year `y` (Gregorian). -/
def daysInMonth (y m : Nat) : Nat :=
  if m == 2 then (if isLeapYear y then 29 else 28)
  else if m == 4 || m == 6 || m == 9 || m == 11 then 30
  else 31

/-- Successor day in the Gregorian calendar. -/
def nextDay (d : PlainDate) : PlainDate :=
  if d.day < daysInMonth d.year d.month then ⟨d.year, d.month, d.day + 1⟩
  else if d.month < 12 then ⟨d.year, d.month + 1, 1⟩
  else ⟨d.year + 1, 1, 1⟩

/-- `d + timedelta(days=n)` on a midnight-local datetime. -/
def addDays : Nat → PlainDate → PlainDate
  | 0, d => d
  | n + 1, d => addDays n (nextDay d)

/-- `d.replace(day=n)` on a midnight-local datetime. -/
def replaceDay (d : PlainDate) (n : Nat) : PlainDate :=
  ⟨d.year, d.month, n⟩

/-- The triple returned by `ReportService._calculate_window`: both window
bounds converted to UTC, plus the local window start. -/
structure WindowResult where
  startUtc : Int
  endUtc : Int
  anchorLocal : PlainDate
deriving DecidableEq

/-- Embedding of `ReportService._calculate_window` (reports.py lines 154-178),
for a caller-supplied anchor date (`report_date` present; when absent the
source uses "today" in the zone, which is just another anchor date).
`utcOf` is the timezone: it maps a midnight-local datetime to the UTC instant
produced by `astimezone(timezone.utc)`. -/
def calculateWindow (utcOf : PlainDate → Int) (reportType : String)
    (anchor : PlainDate) : WindowResult :=
  if reportType == "weekly" then
    ⟨utcOf anchor, utcOf (addDays 7 anchor), anchor⟩
  else if reportType == "monthly" then
    let windowStartLocal := replaceDay anchor 1
    let nextMonth := replaceDay (addDays 32 windowStartLocal) 1
    ⟨utcOf windowStartLocal, utcOf nextMonth, windowStartLocal⟩
  else
    ⟨utcOf anchor, utcOf (addDays 1 anchor), anchor⟩

/-- Spec-side description of "day 1 of the following month", with the
December-to-January rollover. -/
def firstOfNextMonth (d : PlainDate) : PlainDate :=
  if d.month = 12 then ⟨d.year + 1, 1, 1⟩ else ⟨d.year, d.month + 1, 1⟩

/-- A concrete injective timezone-conversion function used by witnesses. -/
def dateCode (d : PlainDate) : Int :=
  (d.year : Int) * 10000 + (d.month : Int) * 100 + (d.day : Int)

set_option maxRecDepth 20000 in
set_option maxHeartbeats 2000000 in
theorem addDays32_firstOfMonth (y m : Nat) (h1 : 1 ≤ m) (h2 : m ≤ 12) :
    replaceDay (addDays 32 ⟨y, m, 1⟩) 1 = firstOfNextMonth ⟨y, m, 1⟩ := by
  interval_cases m <;> by_cases hy : isLeapYear y = true <;>
    simp +decide [addDays, nextDay, daysInMonth, hy, replaceDay, firstOfNextMonth]

/- ------------------------------------------------------------------ -/
/- Task data model and the completion predicate (reports.py)          -/
/- ------------------------------------------------------------------ -/

/-- The fields of a `Task` row read by the report/reminder core.
Instants (`due_at`, `created_at`, `end_at`) are UTC instants as `Int`. -/
structure Task where
  id : Nat
  user_id : Option Nat
  title : String
  status : Option String
  priority : Option String
  due_at : Option Int
  created_at : Option Int
  end_at : Option Int
deriving DecidableEq

/-- Character-wise lowercasing, the semantics of Python's `str.lower()`
(stated over the character list so that it evaluates by kernel
reduction). -/
def strLower (s : String) : String :=
  ⟨s.data.map Char.toLower⟩

/-- Embedding of `ReportService._is_completed` (reports.py lines 240-242):
`status = (task.status or "").lower()` followed by membership in the
synonym set, or `task.end_at is not None`. -/
def isCompleted (t : Task) : Bool :=
  let status := strLower (t.status.getD "")
  ["done", "completed", "resolved"].contains status || t.end_at.isSome

/-- The completed-status synonym set named by the specification. -/
def completedSynonyms : List String :=
  ["done", "completed", "resolved"]

/-- Spec-side completion predicate: `end_at` non-null, or the status compared
case-insensitively equals one of the synonyms. -/
def isCompletedSpec (t : Task) : Prop :=
  t.end_at ≠ none ∨
    ∃ s ∈ completedSynonyms, strLower (t.status.getD "") = strLower s

/- ------------------------------------------------------------------ -/
/- Counts (reports.py `_compute_counts`)                              -/
/- ------------------------------------------------------------------ -/

/-- The counts triple of a report. -/
structure ReportCounts where
  total : Nat
  completed : Nat
  overdue : Nat
deriving DecidableEq

/-- A task is counted overdue by `_compute_counts` when it is not completed,
has a due date, and the due date is strictly before `now`. -/
def overdueB (t : Task) (now : Int) : Bool :=
  !isCompleted t && (t.due_at.map (fun d => decide (d < now))).getD false

/-- Embedding of `ReportService._compute_counts` (reports.py lines 225-238):
one pass over the tasks adding 1 to `total` always, to `completed` when
`_is_completed`, otherwise to `overdue` when `due_at` is set and `< now`.
(The loop accumulates commutative sums, so head-recursion gives the same
triple as the source's forward iteration.) -/
def computeCounts : List Task → Int → ReportCounts
  | [], _ => ⟨0, 0, 0⟩
  | t :: ts, now =>
    let c := computeCounts ts now
    if isCompleted t then ⟨c.total + 1, c.completed + 1, c.overdue⟩
    else if overdueB t now then ⟨c.total + 1, c.completed, c.overdue + 1⟩
    else ⟨c.total + 1, c.completed, c.overdue⟩

/- ------------------------------------------------------------------ -/
/- Sorting helper (model of Python list.sort / sorted, stable)        -/
/- ------------------------------------------------------------------ -/

/-- Stable insertion of `x` into `l` with respect to the Boolean order
`le` (insertion sort models Python's stable `sorted`). -/
def insort (le : α → α → Bool) (x : α) : List α → List α
  | [] => [x]
  | y :: ys => if le x y then x :: y :: ys else y :: insort le x ys

/-- Sorted copy of a list, as produced by Python's `sorted`. -/
def sortedBy (le : α → α → Bool) (l : List α) : List α :=
  l.foldr (insort le) []

theorem mem_insort (le : α → α → Bool) (x a : α) (l : List α) :
    a ∈ insort le x l ↔ a = x ∨ a ∈ l := by
  induction l with
  | nil => simp [insort]
  | cons y ys ih =>
    by_cases h : le x y = true
    · simp [insort, h]
    · simp [insort, h, ih]
      tauto

theorem mem_sortedBy (le : α → α → Bool) (a : α) (l : List α) :
    a ∈ sortedBy le l ↔ a ∈ l := by
  induction l with
  | nil => simp [sortedBy]
  | cons y ys ih =>
    simp only [sortedBy, List.foldr] at ih ⊢
    rw [mem_insort, ih, List.mem_cons]

/- ------------------------------------------------------------------ -/
/- Organization metrics (reports.py `_compute_org_metrics`)           -/
/- ------------------------------------------------------------------ -/

/-- An `(period, overdue)` pair of the overdue trend. -/
structure TrendPoint where
  period : String
  overdue : Nat
deriving DecidableEq

/-- The metrics block of an organization-family report.  The completion
rate is kept as an exact rational (the source's `round(..., 1)` is a
display-precision detail not relied on by any claim). -/
structure OrgMetrics where
  throughput : Nat
  completion_rate : ℚ
  overdue_trend : List TrendPoint
  active_users : Nat
deriving DecidableEq

/-- `defaultdict[str, int]` increment: bump the count stored under `k`,
inserting `(k, 1)` at the end when `k` is absent (Python dicts keep
insertion order). -/
def bump : List (String × Nat) → String → List (String × Nat)
  | [], k => [(k, 1)]
  | (k0, c) :: rest, k =>
    if k0 == k then (k0, c + 1) :: rest else (k0, c) :: bump rest k

/-- The `overdue_by_period` dictionary built by the metrics loop: every
task that is NOT completed and has a due date set is bucketed under the
formatted label of its due date — the loop performs no comparison of the
due date against the current time.  `fmtDate` models
`format_date(task.due_at, locale, tz, fmt="medium")`. -/
def overdueByPeriod (fmtDate : Int → String) (tasks : List Task) :
    List (String × Nat) :=
  tasks.foldl
    (fun acc t =>
      if isCompleted t then acc
      else
        match t.due_at with
        | some d => bump acc (fmtDate d)
        | none => acc)
    []

/-- Code-point lexicographic comparison of character lists: the semantics
of Python's `<` on strings (stated over character lists so that it
evaluates by kernel reduction). -/
def charListLt : List Char → List Char → Bool
  | [], [] => false
  | [], _ :: _ => true
  | _ :: _, [] => false
  | a :: as, b :: bs =>
    if a.val < b.val then true
    else if b.val < a.val then false
    else charListLt as bs

/-- Python `<` on strings. -/
def strLt (a b : String) : Bool :=
  charListLt a.data b.data

/-- Boolean order on trend buckets used by `sorted(overdue_by_period.items())`
(keys are distinct, so the key order decides). -/
def bucketLe (a b : String × Nat) : Bool :=
  strLt a.1 b.1 || a.1 == b.1

/-- Embedding of `ReportService._compute_org_metrics` (reports.py lines
335-362). -/
def computeOrgMetrics (fmtDate : Int → String) (tasks : List Task) :
    OrgMetrics :=
  let throughput := tasks.length
  let completed := tasks.countP (fun t => isCompleted t)
  let activeUsers :=
    (tasks.filterMap
      (fun t =>
        match t.user_id with
        | some u => if u == 0 then none else some u
        | none => none)).dedup
  let completionRate : ℚ :=
    if throughput == 0 then 0 else (completed : ℚ) / (throughput : ℚ) * 100
  let trend :=
    (sortedBy bucketLe (overdueByPeriod fmtDate tasks)).map
      (fun p => TrendPoint.mk p.1 p.2)
  ⟨throughput, completionRate, trend, activeUsers.length⟩

/-- Total number of overdue entries across the trend buckets. -/
def trendSum (m : OrgMetrics) : Nat :=
  (m.overdue_trend.map (fun p => p.overdue)).sum

/- ------------------------------------------------------------------ -/
/- Reminder service (reminders.py)                                    -/
/- ------------------------------------------------------------------ -/

/-- Value of `preferences.get("default_reminder_minutes", [30])` as seen by
`compute_default_times`: absent (defaulting to `[30]`), a single number
(wrapped into a one-element list), or a list whose entries may fail
`int(offset)` (modelled as `none`, skipped individually). -/
inductive PrefVal where
  | absent
  | num (n : Int)
  | listVal (items : List (Option Int))
deriving DecidableEq

/-- The normalized offsets list the loop of `compute_default_times`
iterates over. -/
def offsetsOf : PrefVal → List (Option Int)
  | .absent => [some 30]
  | .num n => [some n]
  | .listVal items => items

/-- Embedding of `ReminderService.compute_default_times` (reminders.py lines
67-93).  Time unit: minutes, so `timedelta(minutes=k)` is `k`.  The
tz-naive normalization of `due_at` is representation-level and invisible on
`Int` instants.  Unparseable offsets are skipped; a candidate
`due_at - offset` is kept only when strictly after `now`; the result is
sorted ascending. -/
def computeDefaultTimes (due_at : Option Int) (pref : PrefVal) (now : Int) :
    List Int :=
  match due_at with
  | none => []
  | some due =>
    let reminders :=
      (offsetsOf pref).filterMap
        (fun o =>
          match o with
          | none => none
          | some offset =>
            let remind_at := due - offset
            if now < remind_at then some remind_at else none)
    sortedBy (fun a b => decide (a ≤ b)) reminders

/-- A `Reminder` row. -/
structure Reminder where
  id : Nat
  task_id : Nat
  remind_at : Int
  sent : Bool
deriving DecidableEq

/-- The reminders table plus the autoincrement counter. -/
structure RemDB where
  rows : List Reminder
  nextId : Nat
deriving DecidableEq

/-- Embedding of `ReminderService.schedule` (reminders.py lines 20-33):
look up an existing reminder with the same `(task_id, remind_at)` pair
(`.limit(1)`, i.e. the first match); when none exists insert a fresh
unsent row. -/
def schedule (db : RemDB) (task_id : Nat) (when : Int) : Reminder × RemDB :=
  match db.rows.find? (fun r => r.task_id == task_id && r.remind_at == when) with
  | some r => (r, db)
  | none =>
    let r : Reminder := ⟨db.nextId, task_id, when, false⟩
    (r, ⟨db.rows ++ [r], db.nextId + 1⟩)

/-- The loop of `schedule_default_reminders` over the computed instants. -/
def scheduleTimes (db : RemDB) (task_id : Nat) :
    List Int → List Reminder × RemDB
  | [] => ([], db)
  | w :: ws =>
    let s := schedule db task_id w
    let rest := scheduleTimes s.2 task_id ws
    (s.1 :: rest.1, rest.2)

/-- Embedding of `ReminderService.schedule_default_reminders` (reminders.py
lines 95-101). -/
def scheduleDefaultReminders (db : RemDB) (task_id : Nat)
    (due_at : Option Int) (pref : PrefVal) (now : Int) :
    List Reminder × RemDB :=
  scheduleTimes db task_id (computeDefaultTimes due_at pref now)

/- ------------------------------------------------------------------ -/
/- Chat-originated reminder creation (telegram_router.py create_tasks) -/
/- ------------------------------------------------------------------ -/

/-- Embedding of the reminder-time computation of `create_tasks`
(telegram_router.py lines 244-248): candidate is `due_at - offset` when the
task has a due date, else `now + offset`; a candidate at or before `now` is
replaced by `now + offset`. -/
def chatReminderTime (due_at : Option Int) (reminderOffset now : Int) : Int :=
  let remind_at :=
    match due_at with
    | some due => due - reminderOffset
    | none => now + reminderOffset
  if remind_at ≤ now then now + reminderOffset else remind_at

/- ------------------------------------------------------------------ -/
/- Reminder dispatch worker (reminders_worker.py)                     -/
/- ------------------------------------------------------------------ -/

/-- The owning user of a task, as read by the worker. -/
structure BotUser where
  id : Nat
  telegram_id : Option Nat
deriving DecidableEq

/-- The task attached to a due reminder. -/
structure BotTask where
  title : String
  due_at : Option Int
  user : Option BotUser
deriving DecidableEq

/-- A fetched due reminder with its eagerly-loaded task. -/
structure DueReminder where
  id : Nat
  task : Option BotTask
  sent : Bool
deriving DecidableEq

/-- The guard `not task or not user or not user.telegram_id` of the worker
loop (Python truthiness: a `telegram_id` of 0 also counts as missing). -/
def undeliverable (r : DueReminder) : Bool :=
  match r.task with
  | none => true
  | some t =>
    match t.user with
    | none => true
    | some u =>
      match u.telegram_id with
      | none => true
      | some tid => tid == 0

/-- One iteration of the dispatch loop on one reminder: undeliverable
reminders are marked sent without being counted; a successful delivery
(`deliver r.id = true`, modelling `adapter.send_message` not raising) marks
sent and counts; a failed delivery leaves the reminder untouched. -/
def stepReminder (deliver : Nat → Bool) (r : DueReminder) :
    DueReminder × Nat :=
  if undeliverable r then ({ r with sent := true }, 0)
  else if deliver r.id then ({ r with sent := true }, 1)
  else (r, 0)

/-- Embedding of the loop of `dispatch_due_reminders` (reminders_worker.py
lines 27-83): processes every fetched reminder in order, accumulating the
`processed` counter; a failure on one reminder does not stop the loop. -/
def dispatchDueReminders (deliver : Nat → Bool) :
    List DueReminder → List DueReminder × Nat
  | [] => ([], 0)
  | r :: rest =>
    let s := stepReminder deliver r
    let tail := dispatchDueReminders deliver rest
    (s.1 :: tail.1, s.2 + tail.2)

/- ------------------------------------------------------------------ -/
/- Report orchestration (reports.py generate and helpers)             -/
/- ------------------------------------------------------------------ -/

/-- The requested output format. -/
inductive ReportFormat where
  | text
  | pdf
  | csv
deriving DecidableEq

/-- The resolved report scope. -/
inductive ReportScope where
  | user
  | organization
  | team
  | project
deriving DecidableEq

/-- The fields of `ReportRequest` consumed by scope resolution and format
gating (date/timezone/locale resolution is handled by `calculateWindow`
above and is orthogonal to these claims). -/
structure ReportRequest where
  report_type : String
  user_id : Option Nat
  organization_id : Option Nat
  team_id : Option Nat
  project_id : Option Nat
  format : ReportFormat
deriving DecidableEq

/-- Embedding of `ReportService._determine_scope` (reports.py lines
180-189): first present identifier wins, in the order user, project, team,
organization; default user. -/
def determineScope (payload : ReportRequest) : ReportScope :=
  if payload.user_id.isSome then .user
  else if payload.project_id.isSome then .project
  else if payload.team_id.isSome then .team
  else if payload.organization_id.isSome then .organization
  else .user

/-- A task preview row of a report. -/
structure ReportTask where
  id : Nat
  title : String
  status : Option String
  priority : Option String
  due_at : Option Int
deriving DecidableEq

/-- `_to_report_task`: the timezone conversion of `due_at` changes only the
display representation of the instant, not the instant itself. -/
def toReportTask (t : Task) : ReportTask :=
  ⟨t.id, t.title, t.status, t.priority, t.due_at⟩

/-- Model of `datetime.max` used as the nulls-last sort sentinel. -/
def maxInstant : Int := 253402300799

/-- Sort key of `_select_next_tasks`. -/
def nextKeyLe (a b : Task) : Bool :=
  let ka := (a.due_at.getD maxInstant, a.created_at.getD maxInstant)
  let kb := (b.due_at.getD maxInstant, b.created_at.getD maxInstant)
  decide (ka.1 < kb.1) || (ka.1 == kb.1 && decide (ka.2 ≤ kb.2))

/-- Embedding of `ReportService._select_next_tasks` (limit 3). -/
def selectNextTasks (tasks : List Task) : List ReportTask :=
  let pending := tasks.filter (fun t => !isCompleted t)
  ((sortedBy nextKeyLe pending).take 3).map toReportTask

/-- Embedding of `ReportService._select_overdue_tasks` (limit 3). -/
def selectOverdueTasks (tasks : List Task) (now : Int) : List ReportTask :=
  let overdue :=
    tasks.filter
      (fun t =>
        (t.due_at.map (fun d => decide (d < now))).getD false &&
          !isCompleted t)
  ((sortedBy (fun a b => decide (a.due_at.getD maxInstant ≤ b.due_at.getD maxInstant))
      overdue).take 3).map toReportTask

/-- `"\n".join(lines)` of Python. -/
def joinLines : List String → String
  | [] => ""
  | [x] => x
  | x :: xs => x ++ "\x0a" ++ joinLines xs

/-- One task line of the user summary. -/
def userTaskLine (tr : String → String) (t : ReportTask) : String :=
  match t.due_at with
  | some _ => tr "report_user_task_line"
  | none => tr "report_user_task_line_no_due"

/-- Embedding of `ReportService._format_user_summary`.  The localization
seam `translate(locale, key, **params)` is modelled by the abstract catalog
`tr : key → text` (parameter interpolation affects only the text of a line,
never the line structure). -/
def formatUserSummary (tr : String → String) (report_type : String)
    (counts : ReportCounts) (next_tasks overdue_tasks : List ReportTask) :
    String :=
  let headerKey :=
    if report_type == "daily" then "report_user_header_daily"
    else if report_type == "weekly" then "report_user_header_weekly"
    else if report_type == "monthly" then "report_user_header_monthly"
    else "report_user_header_daily"
  let lines := [tr headerKey, tr "report_user_counts", tr "report_period"]
  if counts.total == 0 then
    joinLines (lines ++ [tr "report_user_no_tasks"])
  else
    let lines :=
      lines ++
        (if next_tasks.isEmpty then []
         else tr "report_user_next_header" :: next_tasks.map (userTaskLine tr))
    let lines :=
      lines ++
        (if overdue_tasks.isEmpty then [tr "report_user_overdue_empty"]
         else
           tr "report_user_overdue_header" ::
             overdue_tasks.map (userTaskLine tr))
    joinLines lines

/-- Embedding of `ReportService._format_org_summary`. -/
def formatOrgSummary (tr : String → String) (scope : ReportScope)
    (metrics : OrgMetrics) : String :=
  let headerKey :=
    match scope with
    | .team => "report_org_header_team"
    | .project => "report_org_header_project"
    | _ => "report_org_header_organization"
  let lines :=
    [tr headerKey, tr "report_user_counts", tr "report_org_throughput",
     tr "report_org_completion_rate", tr "report_org_active_users"]
  let lines :=
    lines ++
      (if metrics.overdue_trend.isEmpty then [tr "report_org_no_trend"]
       else [tr "report_org_overdue_trend"])
  joinLines (lines ++ [tr "report_period"])

/-- The response assembled at the end of `ReportService.generate`. -/
structure ReportResponse where
  report_type : String
  scope : ReportScope
  summary : String
  counts : ReportCounts
  next_tasks : List ReportTask
  overdue_tasks : List ReportTask
  metrics : Option OrgMetrics
  file_url : Option String
  format : ReportFormat
deriving DecidableEq

/-- Exported-file path as composed by `_render_user_pdf` /
`_render_org_csv` (the path value is opaque to the claims; only its
presence matters). -/
def exportPath (report_type slug ext : String) (timestamp : Int) : String :=
  "/tmp/taskmate_reports/" ++ report_type ++ "-" ++ slug ++ "-" ++
    toString timestamp ++ "." ++ ext

/-- Embedding of `ReportService.generate` (reports.py lines 41-135) after
the task fetch: scope resolution, counts, the user/org summary branch, and
format gating of the exported file.  `generate` contains no raise path:
a format that does not match the resolved scope only logs a warning and
leaves `file_url` unset. -/
def generate (tr : String → String) (fmtDate : Int → String)
    (slug : String) (timestamp : Int) (payload : ReportRequest)
    (tasks : List Task) (now : Int) : ReportResponse :=
  let scope := determineScope payload
  let counts := computeCounts tasks now
  if scope == .user then
    let next_tasks := selectNextTasks tasks
    let overdue_tasks := selectOverdueTasks tasks now
    let summary :=
      formatUserSummary tr payload.report_type counts next_tasks overdue_tasks
    let file_url :=
      if payload.format == .pdf then
        some (exportPath payload.report_type slug "pdf" timestamp)
      else none
    ⟨payload.report_type, scope, summary, counts, next_tasks, overdue_tasks,
      none, file_url, payload.format⟩
  else
    let metrics := computeOrgMetrics fmtDate tasks
    let summary := formatOrgSummary tr scope metrics
    let file_url :=
      if payload.format == .csv then
        some (exportPath payload.report_type slug "csv" timestamp)
      else none
    ⟨payload.report_type, scope, summary, counts, [], [], some metrics,
      file_url, payload.format⟩

/- ------------------------------------------------------------------ -/
/- API route helper (reports_router.py _generate_user_report)         -/
/- ------------------------------------------------------------------ -/

/-- Embedding of `_generate_user_report` (reports_router.py): the
missing-identity check lives HERE, not in `ReportService.generate`.  When
`organization_id` is absent the principal's own `user_id` is used; if that
is also absent an `error_user_required` HTTP 400 is raised before the
service is ever called. -/
def generateUserReportPayload (organization_id principalUserId : Option Nat)
    (hasOrgPrivilege isSystemAdmin : Bool) (report_type : String)
    (format : ReportFormat) : Except String ReportRequest :=
  if organization_id.isSome && !hasOrgPrivilege && !isSystemAdmin then
    .error "error_forbidden"
  else
    match organization_id with
    | none =>
      match principalUserId with
      | none => .error "error_user_required"
      | some uid =>
        .ok ⟨report_type, some uid, none, none, none, format⟩
    | some org =>
      .ok ⟨report_type, none, some org, none, none, format⟩

/- ================================================================== -/
/- Theorems                                                           -/
/- ================================================================== -/

theorem joinLines_two (a b : String) (l : List String) :
    joinLines (a :: b :: l) = a ++ "\x0a" ++ joinLines (b :: l) := rfl

theorem joinLines_ne_empty (a b : String) (l : List String) :
    joinLines (a :: b :: l) ≠ "" := by
  intro h
  have hl := congrArg String.length h
  rw [joinLines_two, String.length_append, String.length_append] at hl
  have h1 : ("\x0a" : String).length = 1 := rfl
  have h0 : ("" : String).length = 0 := rfl
  rw [h1, h0] at hl
  omega

/-- C1: for every timezone and anchor date, `_calculate_window` produces the
daily window [anchor midnight, +1 day), the weekly window
[anchor midnight, +7 days), and the monthly window
[day 1 of the anchor's month, day 1 of the following month) — for every
month length, leap February and the December rollover included — with both
bounds converted to UTC by the zone's conversion function. -/
theorem calculateWindow_spec (utcOf : PlainDate → Int) (anchor : PlainDate)
    (h1 : 1 ≤ anchor.month) (h2 : anchor.month ≤ 12) :
    calculateWindow utcOf "daily" anchor =
      ⟨utcOf anchor, utcOf (addDays 1 anchor), anchor⟩ ∧
    calculateWindow utcOf "weekly" anchor =
      ⟨utcOf anchor, utcOf (addDays 7 anchor), anchor⟩ ∧
    calculateWindow utcOf "monthly" anchor =
      ⟨utcOf (replaceDay anchor 1), utcOf (firstOfNextMonth anchor),
        replaceDay anchor 1⟩ := by
  refine ⟨rfl, rfl, ?_⟩
  have hm : replaceDay (addDays 32 (replaceDay anchor 1)) 1 =
      firstOfNextMonth anchor := by
    have h := addDays32_firstOfMonth anchor.year anchor.month h1 h2
    simpa [replaceDay, firstOfNextMonth] using h
  simp [calculateWindow, hm]

/-- Witness for C1: anchor 2024-02-01 (leap February), an injective
conversion function; the monthly window ends on 2024-03-01. -/
theorem calculateWindow_spec_witness :
    1 ≤ (PlainDate.mk 2024 2 1).month ∧ (PlainDate.mk 2024 2 1).month ≤ 12 ∧
    calculateWindow dateCode "monthly" ⟨2024, 2, 1⟩ =
      ⟨20240201, 20240301, ⟨2024, 2, 1⟩⟩ := by
  refine ⟨by decide, by decide, ?_⟩
  have h := (calculateWindow_spec dateCode ⟨2024, 2, 1⟩ (by decide)
    (by decide)).2.2
  rw [h]
  decide

/-- C2: `_is_completed` holds exactly when `end_at` is non-null or the
status, compared case-insensitively, is one of "done", "completed",
"resolved"; it is a pure function of the task, so the same unmodified task
yields the same boolean everywhere. -/
theorem isCompleted_spec (t : Task) :
    isCompleted t = true ↔ isCompletedSpec t := by
  have hd : strLower "done" = "done" := by decide
  have hc : strLower "completed" = "completed" := by decide
  have hr : strLower "resolved" = "resolved" := by decide
  simp only [isCompleted, isCompletedSpec, completedSynonyms,
    Bool.or_eq_true, List.contains_eq_any_beq, List.any_cons, List.any_nil,
    beq_iff_eq, Option.isSome_iff_ne_none, Bool.or_false]
  constructor
  · rintro (h | h)
    · rcases h with h | h | h
      · exact Or.inr ⟨"done", by simp, by rw [hd]; exact h⟩
      · exact Or.inr ⟨"completed", by simp, by rw [hc]; exact h⟩
      · exact Or.inr ⟨"resolved", by simp, by rw [hr]; exact h⟩
    · exact Or.inl h
  · rintro (h | ⟨s, hs, h⟩)
    · exact Or.inr h
    · simp only [List.mem_cons, List.not_mem_nil, or_false] at hs
      rcases hs with rfl | rfl | rfl
      · exact Or.inl (Or.inl (by rw [hd] at h; exact h))
      · exact Or.inl (Or.inr (Or.inl (by rw [hc] at h; exact h)))
      · exact Or.inl (Or.inr (Or.inr (by rw [hr] at h; exact h)))

theorem overdueB_not_completed {t : Task} {now : Int}
    (h : overdueB t now = true) : isCompleted t = false := by
  unfold overdueB at h
  cases hc : isCompleted t
  · rfl
  · rw [hc] at h
    simp at h

theorem overdueB_iff {t : Task} {now : Int} (h : isCompleted t = false) :
    overdueB t now = true ↔ ∃ d, t.due_at = some d ∧ d < now := by
  unfold overdueB
  cases hd : t.due_at with
  | none => simp [h, hd]
  | some d => simp [h, hd]

/-- Shared characterization of `_compute_counts`: total is the number of
tasks, completed counts `_is_completed` tasks, overdue counts the
non-completed past-due tasks. -/
theorem computeCounts_eq (tasks : List Task) (now : Int) :
    computeCounts tasks now =
      ⟨tasks.length, tasks.countP (fun t => isCompleted t),
        tasks.countP (fun t => overdueB t now)⟩ := by
  induction tasks with
  | nil => rfl
  | cons t ts ih =>
    by_cases h1 : isCompleted t
    · have h2 : overdueB t now = false := by
        cases h : overdueB t now
        · rfl
        · rw [overdueB_not_completed h] at h1; cases h1
      simp [computeCounts, ih, h1, h2, List.countP_cons]
    · by_cases h2 : overdueB t now
      · simp [computeCounts, ih, h1, h2, List.countP_cons]
      · simp [computeCounts, ih, h1, h2, List.countP_cons]

theorem countP_disjoint_le (tasks : List Task) (now : Int) :
    tasks.countP (fun t => isCompleted t) +
        tasks.countP (fun t => overdueB t now) +
        tasks.countP (fun t => !isCompleted t && !overdueB t now) =
      tasks.length := by
  induction tasks with
  | nil => rfl
  | cons t ts ih =>
    by_cases h1 : isCompleted t
    · have h2 : overdueB t now = false := by
        cases h : overdueB t now
        · rfl
        · rw [overdueB_not_completed h] at h1; cases h1
      simp [List.countP_cons, h1, h2]
      omega
    · by_cases h2 : overdueB t now
      · simp [List.countP_cons, h1, h2]
        omega
      · simp [List.countP_cons, h1, h2]
        omega

/-- C4: the counts of `_compute_counts` satisfy
`completed + overdue <= total`, with equality exactly when every
non-completed task has a due date strictly in the past at evaluation time;
a non-completed task with no due date or a future due date is counted in
neither `completed` nor `overdue` (it is only part of `total`, as the
countP characterizations state). -/
theorem computeCounts_invariant (tasks : List Task) (now : Int) :
    (computeCounts tasks now).total = tasks.length ∧
    (computeCounts tasks now).completed =
      tasks.countP (fun t => isCompleted t) ∧
    (computeCounts tasks now).overdue =
      tasks.countP (fun t => overdueB t now) ∧
    (computeCounts tasks now).completed + (computeCounts tasks now).overdue ≤
      (computeCounts tasks now).total ∧
    ((computeCounts tasks now).completed + (computeCounts tasks now).overdue =
        (computeCounts tasks now).total ↔
      ∀ t ∈ tasks, isCompleted t = false →
        ∃ d, t.due_at = some d ∧ d < now) := by
  have hkey := countP_disjoint_le tasks now
  obtain ⟨h1, h2, h3⟩ :
      (computeCounts tasks now).total = tasks.length ∧
      (computeCounts tasks now).completed =
        tasks.countP (fun t => isCompleted t) ∧
      (computeCounts tasks now).overdue =
        tasks.countP (fun t => overdueB t now) := by
    rw [computeCounts_eq]
    exact ⟨rfl, rfl, rfl⟩
  refine ⟨h1, h2, h3, by rw [h1, h2, h3]; omega, ?_⟩
  rw [h1, h2, h3]
  constructor
  · intro heq t ht hnc
    have hz : tasks.countP (fun t => !isCompleted t && !overdueB t now) = 0 := by
      omega
    have := List.countP_eq_zero.mp hz t ht
    simp only [Bool.and_eq_true, Bool.not_eq_true'] at this
    have hov : overdueB t now = true := by
      by_contra hov
      exact this ⟨hnc, by simpa using hov⟩
    exact (overdueB_iff hnc).mp hov
  · intro hall
    have hz : tasks.countP (fun t => !isCompleted t && !overdueB t now) = 0 := by
      apply List.countP_eq_zero.mpr
      intro t ht
      simp only [Bool.and_eq_true, Bool.not_eq_true']
      rintro ⟨hnc, hov⟩
      have := (overdueB_iff hnc).mpr (hall t ht hnc)
      rw [this] at hov
      cases hov
    omega

theorem bump_sum (l : List (String × Nat)) (k : String) :
    ((bump l k).map Prod.snd).sum = ((l.map Prod.snd).sum) + 1 := by
  induction l with
  | nil => rfl
  | cons p rest ih =>
    obtain ⟨k0, c⟩ := p
    by_cases h : (k0 == k) = true
    · simp [bump, h]
      omega
    · simp [bump, h, ih]
      omega

theorem insort_snd_sum (le : String × Nat → String × Nat → Bool)
    (x : String × Nat) (l : List (String × Nat)) :
    ((insort le x l).map Prod.snd).sum = x.2 + (l.map Prod.snd).sum := by
  induction l with
  | nil => simp [insort]
  | cons y ys ih =>
    by_cases h : le x y = true
    · simp [insort, h]
    · simp [insort, h, ih]
      omega

theorem sortedBy_snd_sum (le : String × Nat → String × Nat → Bool)
    (l : List (String × Nat)) :
    ((sortedBy le l).map Prod.snd).sum = (l.map Prod.snd).sum := by
  induction l with
  | nil => rfl
  | cons x xs ih =>
    have hfold : sortedBy le (x :: xs) = insort le x (sortedBy le xs) := rfl
    rw [hfold, insort_snd_sum, ih]
    simp

theorem overdueByPeriod_sum_aux (fmtDate : Int → String)
    (tasks : List Task) : ∀ acc : List (String × Nat),
    ((tasks.foldl
        (fun acc t =>
          if isCompleted t then acc
          else
            match t.due_at with
            | some d => bump acc (fmtDate d)
            | none => acc)
        acc).map Prod.snd).sum =
      (acc.map Prod.snd).sum +
        tasks.countP (fun t => !isCompleted t && t.due_at.isSome) := by
  induction tasks with
  | nil => simp
  | cons t ts ih =>
    intro acc
    rw [List.foldl_cons, List.countP_cons]
    by_cases h1 : isCompleted t
    · simp [h1, ih]
    · cases hd : t.due_at with
      | none => simp [h1, hd, ih]
      | some d =>
        simp [h1, hd, ih, bump_sum]
        omega

/-- Shared fact: the total of the overdue-trend buckets is the number of
non-completed tasks that merely HAVE a due date (the metrics loop never
compares the due date with the current time). -/
theorem trendSum_eq_dueCount (fmtDate : Int → String) (tasks : List Task) :
    trendSum (computeOrgMetrics fmtDate tasks) =
      tasks.countP (fun t => !isCompleted t && t.due_at.isSome) := by
  unfold trendSum computeOrgMetrics
  have hmap :
      ((sortedBy bucketLe (overdueByPeriod fmtDate tasks)).map
          (fun p => TrendPoint.mk p.1 p.2)).map (fun p => p.overdue) =
        (sortedBy bucketLe (overdueByPeriod fmtDate tasks)).map Prod.snd := by
    rw [List.map_map]
    rfl
  simp only [hmap, sortedBy_snd_sum]
  have := overdueByPeriod_sum_aux fmtDate tasks []
  simpa [overdueByPeriod] using this

/-- The single task of the C3 counterexample: not completed, due date in
the future of the evaluation time. -/
def futureDueTask : Task :=
  ⟨1, none, "t", some "pending", none, some 5, some 0, none⟩

/-- C3 counterexample: with one non-completed task whose due date (5) lies
in the future of the evaluation time (0), the trend buckets sum to 1 while
the counts block reports 0 overdue — the claimed equality fails because
`_compute_org_metrics` buckets every non-completed task with a due date,
past or future. -/
theorem overdueTrend_counterexample :
    trendSum (computeOrgMetrics (fun _ => "2024-01-10") [futureDueTask]) = 1 ∧
    (computeCounts [futureDueTask] 0).overdue = 0 := by
  constructor
  · decide
  · decide

/-- C3 (amended): the overdue trend is bucketed from the non-completed
tasks that have a due date set (with no past-due check), so the bucket
counts always sum to that number; the sum equals the `overdue` value of the
counts block whenever every non-completed task with a due date is past-due
at evaluation time (as in the §8.10 instance). -/
theorem overdueTrend_sum (fmtDate : Int → String) (tasks : List Task)
    (now : Int)
    (hpast : ∀ t ∈ tasks, isCompleted t = false → t.due_at.isSome = true →
      overdueB t now = true) :
    trendSum (computeOrgMetrics fmtDate tasks) =
      tasks.countP (fun t => !isCompleted t && t.due_at.isSome) ∧
    trendSum (computeOrgMetrics fmtDate tasks) =
      (computeCounts tasks now).overdue := by
  refine ⟨trendSum_eq_dueCount fmtDate tasks, ?_⟩
  rw [trendSum_eq_dueCount fmtDate tasks, computeCounts_eq]
  apply List.countP_congr
  intro t ht
  by_cases h1 : isCompleted t
  · simp [h1, overdueB]
  · cases hd : t.due_at with
    | none => simp [h1, hd, overdueB]
    | some d =>
      have := hpast t ht (by simpa using h1) (by simp [hd])
      simp only [Bool.not_eq_true] at h1
      simp [h1, hd, this]

/-- The three past-due, non-completed tasks of the §8.10 instance: two due
on 2024-01-10, one due on 2024-01-12 (instants 10, 10, 12; evaluated at
time 100). -/
def overdueTaskA : Task := ⟨1, some 1, "a", some "pending", none, some 10, some 0, none⟩

def overdueTaskB : Task := ⟨2, some 2, "b", some "pending", none, some 10, some 0, none⟩

def overdueTaskC : Task := ⟨3, some 1, "c", some "pending", none, some 12, some 0, none⟩

/-- Date formatter of the §8.10 instance. -/
def witnessFmtDate (d : Int) : String :=
  if d == 10 then "2024-01-10" else "2024-01-12"

/-- Witness for the amended C3 theorem at the §8.10 instance: all three
tasks are past-due at time 100, the trend has two buckets, and its sum (3)
equals the overdue count. -/
theorem overdueTrend_sum_witness :
    (∀ t ∈ [overdueTaskA, overdueTaskB, overdueTaskC],
      isCompleted t = false → t.due_at.isSome = true →
        overdueB t 100 = true) ∧
    trendSum (computeOrgMetrics witnessFmtDate
        [overdueTaskA, overdueTaskB, overdueTaskC]) =
      (computeCounts [overdueTaskA, overdueTaskB, overdueTaskC] 100).overdue ∧
    trendSum (computeOrgMetrics witnessFmtDate
        [overdueTaskA, overdueTaskB, overdueTaskC]) = 3 ∧
    (computeOrgMetrics witnessFmtDate
        [overdueTaskA, overdueTaskB, overdueTaskC]).overdue_trend.length = 2 := by
  refine ⟨by decide, ?_, by decide, by decide⟩
  exact (overdueTrend_sum witnessFmtDate
    [overdueTaskA, overdueTaskB, overdueTaskC] 100 (by decide)).2

theorem formatUserSummary_ne_empty (tr : String → String)
    (report_type : String) (counts : ReportCounts)
    (next_tasks overdue_tasks : List ReportTask) :
    formatUserSummary tr report_type counts next_tasks overdue_tasks ≠ "" := by
  unfold formatUserSummary
  by_cases h : (counts.total == 0) = true
  · simp only [h, if_pos, List.cons_append, List.nil_append]
    exact joinLines_ne_empty _ _ _
  · simp only [h, Bool.false_eq_true, if_false, List.cons_append,
      List.nil_append]
    exact joinLines_ne_empty _ _ _

theorem formatOrgSummary_ne_empty (tr : String → String)
    (scope : ReportScope) (metrics : OrgMetrics) :
    formatOrgSummary tr scope metrics ≠ "" := by
  unfold formatOrgSummary
  simp only [List.cons_append, List.nil_append]
  exact joinLines_ne_empty _ _ _

/-- C5: a PDF request at a non-user scope and a CSV request at user scope
degrade rather than fail: `generate` returns a response whose `file_url`
is null while the rendered summary is non-empty. -/
theorem generate_format_gating (tr : String → String)
    (fmtDate : Int → String) (slug : String) (timestamp : Int)
    (payload : ReportRequest) (tasks : List Task) (now : Int)
    (h : (determineScope payload ≠ .user ∧ payload.format = .pdf) ∨
      (determineScope payload = .user ∧ payload.format = .csv)) :
    (generate tr fmtDate slug timestamp payload tasks now).file_url = none ∧
    (generate tr fmtDate slug timestamp payload tasks now).summary ≠ "" := by
  unfold generate
  rcases h with ⟨hs, hf⟩ | ⟨hs, hf⟩
  · have hb : (determineScope payload == ReportScope.user) = false := by
      simpa using hs
    simp only [hb, Bool.false_eq_true, if_false, hf]
    exact ⟨rfl, formatOrgSummary_ne_empty _ _ _⟩
  · have hb : (determineScope payload == ReportScope.user) = true := by
      simpa using hs
    simp only [hb, if_true, hf]
    exact ⟨rfl, formatUserSummary_ne_empty _ _ _ _ _⟩

/-- Witness for C5: an organization-scope request asking for PDF. -/
theorem generate_format_gating_witness :
    determineScope ⟨"daily", none, some 1, none, none, .pdf⟩ ≠ .user ∧
    (generate (fun k => k) (fun _ => "d") "s" 0
        ⟨"daily", none, some 1, none, none, .pdf⟩ [] 0).file_url = none ∧
    (generate (fun k => k) (fun _ => "d") "s" 0
        ⟨"daily", none, some 1, none, none, .pdf⟩ [] 0).summary ≠ "" := by
  refine ⟨by decide, ?_⟩
  exact generate_format_gating (fun k => k) (fun _ => "d") "s" 0
    ⟨"daily", none, some 1, none, none, .pdf⟩ [] 0
    (Or.inl ⟨by decide, rfl⟩)

/-- A report request that carries none of user_id, project_id, team_id,
organization_id. -/
def allNoneRequest : ReportRequest :=
  ⟨"daily", none, none, none, none, .text⟩

/-- C6 counterexample: on the identity-free request the resolver does
return USER, but `ReportService.generate` raises nothing for the missing
identity — its source contains no such check, and the embedding evaluates
to an ordinary completed response (USER scope, non-empty summary, no file)
at this very input. -/
theorem generate_missing_identity_counterexample :
    determineScope allNoneRequest = .user ∧
    (generate (fun k => k) (fun _ => "d") "subject" 0 allNoneRequest
        [] 0).scope = .user ∧
    (generate (fun k => k) (fun _ => "d") "subject" 0 allNoneRequest
        [] 0).summary ≠ "" ∧
    (generate (fun k => k) (fun _ => "d") "subject" 0 allNoneRequest
        [] 0).file_url = none := by
  refine ⟨by decide, by decide, by decide, by decide⟩

/-- C6 (amended): on a request with no identifier at all the scope
resolver returns USER without raising, and `ReportService.generate` also
does not raise — it returns a normal USER-scope response; the
missing-identity error (`error_user_required`) is raised upstream by the
API route helper `_generate_user_report` when neither an organization id
nor the principal's own user id is available. -/
theorem missing_identity_spec (p : ReportRequest)
    (hu : p.user_id = none) (hp : p.project_id = none)
    (ht : p.team_id = none) (ho : p.organization_id = none) :
    determineScope p = .user ∧
    (∀ hasPriv isAdmin rt f,
      generateUserReportPayload none none hasPriv isAdmin rt f =
        .error "error_user_required") ∧
    ∀ tr fmtDate slug timestamp tasks now,
      (generate tr fmtDate slug timestamp p tasks now).scope = .user ∧
      (generate tr fmtDate slug timestamp p tasks now).summary ≠ "" := by
  have hscope : determineScope p = .user := by
    unfold determineScope
    simp [hu, hp, ht, ho]
  refine ⟨hscope, fun hasPriv isAdmin rt f => ?_, ?_⟩
  · unfold generateUserReportPayload
    simp
  · intro tr fmtDate slug timestamp tasks now
    unfold generate
    have hb : (determineScope p == ReportScope.user) = true := by
      simp [hscope]
    simp only [hb, if_true]
    exact ⟨hscope, formatUserSummary_ne_empty _ _ _ _ _⟩

/-- Witness for the amended C6 theorem at the identity-free request. -/
theorem missing_identity_spec_witness :
    allNoneRequest.user_id = none ∧
    generateUserReportPayload none none false false "daily" .text =
      .error "error_user_required" ∧
    (generate (fun k => k) (fun _ => "d") "s" 0 allNoneRequest [] 0).scope =
      .user := by
  have h := missing_identity_spec allNoneRequest rfl rfl rfl rfl
  exact ⟨rfl, h.2.1 false false "daily" .text,
    (h.2.2 (fun k => k) (fun _ => "d") "s" 0 [] 0).1⟩

/-- Shared helper: every instant kept by `compute_default_times` passed the
strict `remind_at > now` filter. -/
theorem mem_computeDefaultTimes {due : Option Int} {pref : PrefVal}
    {now x : Int} (hx : x ∈ computeDefaultTimes due pref now) : now < x := by
  cases due with
  | none => simp [computeDefaultTimes] at hx
  | some d =>
    unfold computeDefaultTimes at hx
    rw [mem_sortedBy] at hx
    rcases List.mem_filterMap.mp hx with ⟨o, ho, hf⟩
    cases o with
    | none => simp at hf
    | some k =>
      by_cases h : now < d - k
      · simp only [if_pos h] at hf
        cases hf
        exact h
      · simp only [if_neg h] at hf
        cases hf

/-- C7: with a fixed `now`, every instant returned by
`compute_default_times` is strictly greater than `now`; an absent due
instant yields the empty list. -/
theorem computeDefaultTimes_spec (due : Option Int) (pref : PrefVal)
    (now : Int) :
    computeDefaultTimes none pref now = [] ∧
    ∀ x ∈ computeDefaultTimes due pref now, now < x :=
  ⟨rfl, fun _ hx => mem_computeDefaultTimes hx⟩

/-- Witness for C7: due at 100, default preferences (single 30-minute
offset), now 0: the returned instant 70 is strictly after 0. -/
theorem computeDefaultTimes_spec_witness :
    (70 : Int) ∈ computeDefaultTimes (some 100) .absent 0 ∧ (0 : Int) < 70 :=
  ⟨by decide, (computeDefaultTimes_spec (some 100) .absent 0).2 70 (by decide)⟩

theorem dispatch_fst (deliver : Nat → Bool) (rems : List DueReminder) :
    (dispatchDueReminders deliver rems).1 =
      rems.map (fun r => (stepReminder deliver r).1) := by
  induction rems with
  | nil => rfl
  | cons r rest ih => simp [dispatchDueReminders, ih]

theorem dispatch_snd (deliver : Nat → Bool) (rems : List DueReminder) :
    (dispatchDueReminders deliver rems).2 =
      rems.countP (fun r => !undeliverable r && deliver r.id) := by
  induction rems with
  | nil => rfl
  | cons r rest ih =>
    rw [List.countP_cons]
    by_cases h1 : undeliverable r = true
    · simp [dispatchDueReminders, stepReminder, h1, ih]
    · by_cases h2 : deliver r.id = true
      · simp [dispatchDueReminders, stepReminder, h1, h2, ih]
        omega
      · simp [dispatchDueReminders, stepReminder, h1, h2, ih]

/-- C8: one dispatch run maps each fetched reminder independently and sums
the delivered count: an undeliverable reminder (missing task, user or
external-channel id) is marked sent without being counted; a delivered one
is marked sent and counted; a failed delivery leaves that one reminder
unchanged (still unsent) while the rest of the batch is still processed. -/
theorem dispatchDueReminders_spec (deliver : Nat → Bool)
    (rems : List DueReminder) :
    (dispatchDueReminders deliver rems).1 =
      rems.map (fun r => (stepReminder deliver r).1) ∧
    (dispatchDueReminders deliver rems).2 =
      rems.countP (fun r => !undeliverable r && deliver r.id) ∧
    ∀ r ∈ rems,
      (undeliverable r = true →
        (stepReminder deliver r).1 = { r with sent := true } ∧
        (stepReminder deliver r).2 = 0) ∧
      (undeliverable r = false → deliver r.id = true →
        (stepReminder deliver r).1 = { r with sent := true } ∧
        (stepReminder deliver r).2 = 1) ∧
      (undeliverable r = false → deliver r.id = false →
        (stepReminder deliver r).1 = r ∧
        (stepReminder deliver r).2 = 0) := by
  refine ⟨dispatch_fst deliver rems, dispatch_snd deliver rems, ?_⟩
  intro r _
  refine ⟨fun h1 => ?_, fun h1 h2 => ?_, fun h1 h2 => ?_⟩
  · simp [stepReminder, h1]
  · simp [stepReminder, h1, h2]
  · simp [stepReminder, h1, h2]

/-- The §8.8 batch: 5 due reminders, the first two lacking a deliverable
task/user. -/
def exBatch : List DueReminder :=
  [⟨1, none, false⟩, ⟨2, none, false⟩,
   ⟨3, some ⟨"t3", none, some ⟨7, some 99⟩⟩, false⟩,
   ⟨4, some ⟨"t4", none, some ⟨8, some 99⟩⟩, false⟩,
   ⟨5, some ⟨"t5", none, some ⟨9, some 99⟩⟩, false⟩]

/-- Delivery oracle of the §8.8 instance: exactly the attempt for
reminder 4 raises. -/
def exDeliver (i : Nat) : Bool := !(i == 4)

/-- Witness for C8 at the §8.8 instance: after one run 4 reminders are
sent (2 undeliverable drops + 2 deliveries), the run reports 2 dispatched,
and the failed reminder 4 remains unsent. -/
theorem dispatchDueReminders_spec_witness :
    ((dispatchDueReminders exDeliver exBatch).1.countP
        (fun r => r.sent) = 4) ∧
    ((dispatchDueReminders exDeliver exBatch).2 = 2) ∧
    (∀ r ∈ (dispatchDueReminders exDeliver exBatch).1,
      r.id = 4 → r.sent = false) ∧
    (stepReminder exDeliver ⟨1, none, false⟩).1 = ⟨1, none, true⟩ ∧
    (stepReminder exDeliver ⟨4, some ⟨"t4", none, some ⟨8, some 99⟩⟩, false⟩).1
      = ⟨4, some ⟨"t4", none, some ⟨8, some 99⟩⟩, false⟩ := by
  refine ⟨by decide, by decide, by decide, ?_, ?_⟩
  · exact (((dispatchDueReminders_spec exDeliver exBatch).2.2
      ⟨1, none, false⟩ (by decide)).1 (by decide)).1
  · exact (((dispatchDueReminders_spec exDeliver exBatch).2.2
      ⟨4, some ⟨"t4", none, some ⟨8, some 99⟩⟩, false⟩ (by decide)).2.2
      (by decide) (by decide)).1

/-- C9 counterexample: with a (configurable) reminder offset of -1 minute
stored in the user's preferences, the chat-originated path constructs a
reminder at `now - 1`, strictly before creation time — the clamp
`now + offset` does not prevent a past instant when the offset is
negative.  (Input: task without due date, offset -1, now 0.) -/
theorem chatReminderTime_counterexample :
    chatReminderTime none (-1) 0 < 0 := by decide

/-- C9 (amended): provided the configured offset is non-negative, no
reminder is constructed with `remind_at` strictly before `now` on either
creation path; the two paths keep their distinct behaviors — the
chat-originated path replaces a candidate at or before `now` with
`now + offset`, while the default-offset path drops non-future candidates
from its result (every returned instant is strictly after `now`). -/
theorem reminder_nonpast_spec (due : Option Int) (offset now : Int)
    (hoff : 0 ≤ offset) :
    now ≤ chatReminderTime due offset now ∧
    (∀ d, d - offset ≤ now →
      chatReminderTime (some d) offset now = now + offset) ∧
    (∀ pref, ∀ x ∈ computeDefaultTimes due pref now, now < x) := by
  refine ⟨?_, ?_, fun pref x hx => mem_computeDefaultTimes hx⟩
  · cases due with
    | none =>
      simp only [chatReminderTime]
      by_cases h : now + offset ≤ now
      · rw [if_pos h]
        omega
      · rw [if_neg h]
        omega
    | some d =>
      simp only [chatReminderTime]
      by_cases h : d - offset ≤ now
      · rw [if_pos h]
        omega
      · rw [if_neg h]
        omega
  · intro d hd
    simp only [chatReminderTime]
    rw [if_pos hd]

/-- Witness for the amended C9 theorem: due at 10, offset 30, now 0 — the
candidate 10 - 30 = -20 is clamped to 30, not before now. -/
theorem reminder_nonpast_spec_witness :
    (0 : Int) ≤ 30 ∧ (0 : Int) ≤ chatReminderTime (some 10) 30 0 :=
  ⟨by decide, (reminder_nonpast_spec (some 10) 30 0 (by decide)).1⟩

theorem schedule_of_exists (db : RemDB) (tid : Nat) (w : Int)
    (h : ∃ r ∈ db.rows, r.task_id = tid ∧ r.remind_at = w) :
    (schedule db tid w).2 = db ∧
    (schedule db tid w).1 ∈ db.rows ∧
    (schedule db tid w).1.task_id = tid ∧
    (schedule db tid w).1.remind_at = w := by
  unfold schedule
  cases hf : db.rows.find? (fun r => r.task_id == tid && r.remind_at == w) with
  | none =>
    exfalso
    obtain ⟨r, hr, h1, h2⟩ := h
    have hnone := List.find?_eq_none.mp hf r hr
    simp [h1, h2] at hnone
  | some r =>
    have hmem := List.mem_of_find?_eq_some hf
    have hpred := List.find?_some hf
    simp only [Bool.and_eq_true, beq_iff_eq] at hpred
    exact ⟨rfl, hmem, hpred.1, hpred.2⟩

theorem schedule_mem_mono {r : Reminder} (db : RemDB) (tid : Nat) (w : Int)
    (hr : r ∈ db.rows) : r ∈ (schedule db tid w).2.rows := by
  unfold schedule
  cases hf : db.rows.find? (fun r => r.task_id == tid && r.remind_at == w) with
  | none =>
    simp only [List.mem_append]
    exact Or.inl hr
  | some r0 => exact hr

theorem schedule_ensures (db : RemDB) (tid : Nat) (w : Int) :
    ∃ r ∈ (schedule db tid w).2.rows,
      r.task_id = tid ∧ r.remind_at = w := by
  unfold schedule
  cases hf : db.rows.find? (fun r => r.task_id == tid && r.remind_at == w) with
  | none =>
    refine ⟨⟨db.nextId, tid, w, false⟩, ?_, rfl, rfl⟩
    simp
  | some r =>
    have hpred := List.find?_some hf
    simp only [Bool.and_eq_true, beq_iff_eq] at hpred
    exact ⟨r, List.mem_of_find?_eq_some hf, hpred⟩

theorem scheduleTimes_mem_mono {r : Reminder} (tid : Nat) (ws : List Int) :
    ∀ db : RemDB, r ∈ db.rows → r ∈ (scheduleTimes db tid ws).2.rows := by
  induction ws with
  | nil => intro db h; exact h
  | cons w ws ih =>
    intro db h
    simp only [scheduleTimes]
    exact ih _ (schedule_mem_mono db tid w h)

theorem scheduleTimes_ensures (tid : Nat) (ws : List Int) :
    ∀ db : RemDB, ∀ w ∈ ws,
      ∃ r ∈ (scheduleTimes db tid ws).2.rows,
        r.task_id = tid ∧ r.remind_at = w := by
  induction ws with
  | nil => intro db w h; cases h
  | cons w0 ws ih =>
    intro db w hw
    rcases List.mem_cons.mp hw with rfl | hw2
    · obtain ⟨r, hr, h1, h2⟩ := schedule_ensures db tid w
      refine ⟨r, ?_, h1, h2⟩
      simp only [scheduleTimes]
      exact scheduleTimes_mem_mono tid ws _ hr
    · simp only [scheduleTimes]
      exact ih (schedule db tid w0).2 w hw2

theorem scheduleTimes_noop (tid : Nat) (ws : List Int) :
    ∀ db : RemDB,
      (∀ w ∈ ws, ∃ r ∈ db.rows, r.task_id = tid ∧ r.remind_at = w) →
      (scheduleTimes db tid ws).2 = db := by
  induction ws with
  | nil => intro db _; rfl
  | cons w0 ws ih =>
    intro db h
    have heq := (schedule_of_exists db tid w0 (h w0 (List.mem_cons_self _ _))).1
    simp only [scheduleTimes, heq]
    exact ih db (fun w hw => h w (List.mem_cons_of_mem _ hw))

/-- C10: scheduling is idempotent on the (task id, instant) pair — when a
reminder with that pair already exists, `schedule` returns an existing row
with that pair and leaves the table unchanged; consequently re-invoking
`schedule_default_reminders` on an unchanged task adds no reminders beyond
those of the first invocation. -/
theorem schedule_idempotent (db : RemDB) (task_id : Nat) (w : Int)
    (h : ∃ r ∈ db.rows, r.task_id = task_id ∧ r.remind_at = w) :
    ((schedule db task_id w).2 = db ∧
      (schedule db task_id w).1 ∈ db.rows ∧
      (schedule db task_id w).1.task_id = task_id ∧
      (schedule db task_id w).1.remind_at = w) ∧
    ∀ due pref now,
      (scheduleDefaultReminders
          (scheduleDefaultReminders db task_id due pref now).2
          task_id due pref now).2 =
        (scheduleDefaultReminders db task_id due pref now).2 := by
  refine ⟨schedule_of_exists db task_id w h, ?_⟩
  intro due pref now
  unfold scheduleDefaultReminders
  apply scheduleTimes_noop
  intro t ht
  exact scheduleTimes_ensures task_id _ db t ht

/-- A one-row reminder table for the C10 witness. -/
def exDB : RemDB := ⟨[⟨0, 7, 100, false⟩], 1⟩

/-- Witness for C10: a reminder (task 7, instant 100) already exists, so
`schedule` is a no-op on the table, and re-running the default scheduling
for task 7 (due 130, default 30-minute offset, now 0 — yielding exactly
instant 100) changes nothing. -/
theorem schedule_idempotent_witness :
    (schedule exDB 7 100).2 = exDB ∧
    (schedule exDB 7 100).1 ∈ exDB.rows ∧
    (scheduleDefaultReminders
        (scheduleDefaultReminders exDB 7 (some 130) .absent 0).2
        7 (some 130) .absent 0).2 =
      (scheduleDefaultReminders exDB 7 (some 130) .absent 0).2 := by
  have h := schedule_idempotent exDB 7 100
    ⟨⟨0, 7, 100, false⟩, by decide, rfl, rfl⟩
  exact ⟨h.1.1, h.1.2.1, h.2 (some 130) .absent 0⟩

end TaskMate
